import Mathlib

/-!
Verification development for the inbound change processor of a two-region
database synchronization service. The definitions below are a shallow
embedding of the consumer module: the conflict resolver `resolveConflict`,
the message handler `handleMessage`, and the metrics store method
`recordSync`, together with the value conversions they perform.

Modelling conventions:
* JavaScript values that can appear in a parsed JSON envelope are embedded as
  `JVal`; an absent field is `Option.none`, JS `null` is `JVal.jnull`, and a
  JS `Date` object is `JVal.jdate` carrying its epoch milliseconds.
* Parsing of ISO date strings by the `Date` constructor is not modelled: a
  string passed where a timestamp is expected behaves as an invalid date
  (`none`). Floating point numbers are outside the embedding; numeric
  fields are integers.
* The sink rejects a bound value that does not cast to the column's type.
  The model tracks types for the two columns it stores typed — `updated_at`
  (timestamp) and `version` (integer) — and lets such a statement fail with
  no effect, as the resolver's catch swallows the error; all other columns
  are stored untyped, so their cast errors are outside the model.
* Database state is a function from table name to its list of rows; the
  single SQL statements issued by the resolver (`SELECT`, `DELETE`,
  `INSERT ... ON CONFLICT`) are modelled by explicit list operations, and
  every issued statement is recorded in a trace.
-/

inductive JVal where
  | jnull : JVal
  | jint : Int → JVal
  | jstr : String → JVal
  | jbool : Bool → JVal
  | jdate : Int → JVal
  | jobj : List (String × JVal) → JVal

/-- JS truthiness of a value: `null`, `0`, `""` and `false` are falsy;
objects (including `Date`) are always truthy. -/
def JVal.truthy : JVal → Bool
  | .jnull => false
  | .jint n => n != 0
  | .jstr s => s != ""
  | .jbool b => b
  | .jdate _ => true
  | .jobj _ => true

/-- First binding of a key in an object field list (JSON objects carry each
key at most once, so first lookup is the lookup). -/
def lookupStr : List (String × JVal) → String → Option JVal
  | [], _ => none
  | (k', v) :: rest, k => if k' = k then some v else lookupStr rest k

/-- Property access `v.f`: `undefined` (`none`) unless `v` is an object
holding the key. Also models the optional chain `v?.f`, since accessing a
field of a non-object is either `undefined` or short-circuited. -/
def JVal.getField : JVal → String → Option JVal
  | .jobj fs, k => lookupStr fs k
  | _, _ => none

/-- `Object.keys` of a value (empty for non-objects). -/
def objKeys : JVal → List String
  | .jobj fs => fs.map (·.1)
  | _ => []

/-- JS `a || b` where `a` may be `undefined` and the chain ends in a defined
value: a present truthy `a` wins, otherwise `b`. -/
def jsOr (a : Option JVal) (b : JVal) : JVal :=
  match a with
  | some v => if v.truthy then v else b
  | none => b

/-- JS `a || b` where both sides may be `undefined`. -/
def jsOrOpt (a b : Option JVal) : Option JVal :=
  match a with
  | some v => if v.truthy then some v else b
  | none => b

/-- Collapses a possibly absent value to `some` only when present and truthy;
models the guards `if (!x) return` on optional values. -/
def jsTruthy? (a : Option JVal) : Option JVal :=
  match a with
  | some v => if v.truthy then some v else none
  | none => none

/-- Scalar equality as used by the SQL `WHERE id = $1` comparison; object
values never compare equal to anything. -/
def JVal.eqScalar : JVal → JVal → Bool
  | .jnull, .jnull => true
  | .jint a, .jint b => a == b
  | .jstr a, .jstr b => a == b
  | .jbool a, .jbool b => a == b
  | .jdate a, .jdate b => a == b
  | _, _ => false

/-- Equality test `v === s` against a string literal. -/
def JVal.isStr (v : JVal) (s : String) : Bool :=
  match v with
  | .jstr t => t == s
  | _ => false

/-- String interpolation `${v}` of a scalar into a template literal. -/
def jvalToStr : JVal → String
  | .jnull => "null"
  | .jint n => toString n
  | .jstr s => s
  | .jbool b => if b then "true" else "false"
  | .jdate m => toString m
  | .jobj _ => "[object Object]"

def charsLead : List Char → List Char → Bool
  | [], _ => true
  | _ :: _, [] => false
  | c :: cs, d :: ds => c == d && charsLead cs ds

def charsContain (pat : List Char) : List Char → Bool
  | [] => charsLead pat []
  | l@(_ :: rest) => charsLead pat l || charsContain pat rest

/-- `s.includes(pat)` on strings. -/
def containsSub (s pat : String) : Bool := charsContain pat.data s.data

/-- `s.startsWith("_")`. -/
def startsUnderscore (s : String) : Bool :=
  match s.data with
  | '_' :: _ => true
  | _ => false

def removeFirstInfix (pat : List Char) : List Char → List Char
  | [] => []
  | c :: rest =>
    if charsLead pat (c :: rest) then (c :: rest).drop pat.length
    else c :: removeFirstInfix pat rest

/-- `topic.replace('sync.', '')`: removes the first occurrence of `sync.`. -/
def tableNameOf (topic : String) : String := ⟨removeFirstInfix "sync.".data topic.data⟩

/-! ## Calendar conversion

The resolver turns an epoch-day number into an ISO `YYYY-MM-DD` string via
JS `Date` arithmetic (`new Date(1970,0,1)`, `setDate`, `toISOString`), which
on a UTC-clock server walks the proleptic Gregorian calendar from
1970-01-01: forward for nonnegative day counts, backward for negative ones
(for example, day -5 is `1969-12-27`). The walk below is that computation,
with the year rendered as `toISOString` renders it (four zero-padded
digits, or the expanded signed six-digit form outside years 0-9999). The
walk's fuel covers the `Date` type's whole ±100,000,000-day range; past
that range `toISOString` throws and the handler's catch drops the message,
which is outside the model. -/

def isLeapYear (y : Int) : Bool := (y % 4 == 0 && y % 100 != 0) || y % 400 == 0

def daysInYear (y : Int) : Nat := if isLeapYear y then 366 else 365

def yearWalk : Nat → Int → Nat → Int × Nat
  | 0, y, n => (y, n)
  | fuel + 1, y, n =>
    if n < daysInYear y then (y, n) else yearWalk fuel (y + 1) (n - daysInYear y)

/-- Backward year walk for dates before 1970: `k` is the positive number of
days before 1970-01-01; returns the year and the zero-based day of year. -/
def yearWalkBack : Nat → Int → Nat → Int × Nat
  | 0, y, _ => (y, 0)
  | fuel + 1, y, k =>
    if k ≤ daysInYear (y - 1) then (y - 1, daysInYear (y - 1) - k)
    else yearWalkBack fuel (y - 1) (k - daysInYear (y - 1))

def monthLengths (y : Int) : List Nat :=
  [31, if isLeapYear y then 29 else 28, 31, 30, 31, 30, 31, 31, 30, 31, 30, 31]

def monthWalk : List Nat → Nat → Nat → Nat × Nat
  | [], m, d => (m, d + 1)
  | len :: rest, m, d => if d < len then (m, d + 1) else monthWalk rest (m + 1) (d - len)

def pad2 (n : Nat) : String := if n < 10 then "0" ++ toString n else toString n

/-- Zero-pads a number to the given width. -/
def padNum (w n : Nat) : String :=
  let s := toString n
  if s.length < w then String.mk (List.replicate (w - s.length) '0') ++ s else s

/-- The year as `toISOString` renders it: four digits for years 0-9999,
otherwise the expanded signed six-digit form. -/
def isoYear (y : Int) : String :=
  if y < 0 then "-" ++ padNum 6 (-y).toNat
  else if y > 9999 then "+" ++ padNum 6 y.toNat
  else padNum 4 y.toNat

/-- ISO `YYYY-MM-DD` string of the day `n` days after 1970-01-01 (before it
when `n` is negative). -/
def epochDayIso (n : Int) : String :=
  let p :=
    if 0 ≤ n then yearWalk 300000 1970 n.toNat
    else yearWalkBack 300000 1970 (-n).toNat
  let q := monthWalk (monthLengths p.1) 1 p.2
  isoYear p.1 ++ "-" ++ pad2 q.1 ++ "-" ++ pad2 q.2

/-! ## Envelope field extraction (conflictResolver lines 33-72) -/

/-- `value.payload?.after || value.after || value`. -/
def newDataOf (value : JVal) : JVal :=
  jsOr ((value.getField "payload").bind (·.getField "after"))
    (jsOr (value.getField "after") value)

/-- `value.payload?.op || value.op || 'u'`. -/
def operationOf (value : JVal) : JVal :=
  jsOr (jsOrOpt ((value.getField "payload").bind (·.getField "op")) (value.getField "op"))
    (.jstr "u")

/-- `value.payload?._sync_origin || value._sync_origin`. -/
def syncOriginOf (value : JVal) : Option JVal :=
  jsOrOpt ((value.getField "payload").bind (·.getField "_sync_origin"))
    (value.getField "_sync_origin")

/-- `key?.id || newData?.id`. -/
def recordIdOf (key : Option JVal) (newData : JVal) : Option JVal :=
  jsOrOpt (key.bind (·.getField "id")) (newData.getField "id")

/-- A timestamp field value coerced to epoch milliseconds: numbers above
`10^11` are microseconds and are floor-divided by 1000, other numbers are
already milliseconds, a `Date` yields its own time; strings and objects are
unmodelled/invalid dates (`none`). Only called on truthy values, where JS
coerces `true` to 1 ms. -/
def tsOfVal : JVal → Option Int
  | .jint n => if n > 100000000000 then some (n / 1000) else some n
  | .jdate m => some m
  | .jbool _ => some 1
  | _ => none

/-- `sourceTimestamp` of lines 40-57: prefers a truthy `updated_at`, falls
back to a truthy `created_at`, else stays `null`. -/
def sourceTsOf (newData : JVal) : Option Int :=
  match jsTruthy? (newData.getField "updated_at") with
  | some v => tsOfVal v
  | none =>
    match jsTruthy? (newData.getField "created_at") with
    | some v => tsOfVal v
    | none => none

/-- The sync latency of line 241: `sourceTimestamp ? end - sourceTimestamp :
end - syncStartTime`, where a `null`, `NaN` or `0` source timestamp is falsy
and falls back to the receipt-time measurement. -/
def latencyOf (sourceTs : Option Int) (endMs startMs : Int) : Int :=
  match sourceTs with
  | some t => if t != 0 then endMs - t else endMs - startMs
  | none => endMs - startMs

/-- `incomingUpdatedAt` of lines 98-102, as epoch milliseconds; `none` models
an invalid date (`NaN`), obtained for an absent or non-temporal field.
JS coerces `null` to epoch 0 and booleans to 0/1 milliseconds. -/
def incomingMsOf (newData : JVal) : Option Int :=
  match newData.getField "updated_at" with
  | some (.jint n) => if n > 100000000000 then some (n / 1000) else some n
  | some (.jdate m) => some m
  | some .jnull => some 0
  | some (.jbool b) => some (if b then 1 else 0)
  | _ => none

/-! ## Privacy filter and value conversion (lines 150-215) -/

def PRIVATE_FIELDS : List String :=
  ["username", "email", "full_name", "phone", "user_email", "user_phone",
   "user_name", "creator_name", "creator_email", "creator_phone",
   "salesperson_name", "salesperson_email", "salesperson_phone"]

def FOREIGN_KEY_FIELDS : List String :=
  ["created_by_user_id", "salesperson_user_id"]

/-- Per-column value conversion of lines 191-215: foreign keys are nulled;
a numeric value below `10^5` on a column whose name contains `date` becomes
an ISO date string; a numeric value above `10^11` becomes a `Date` at the
microsecond value divided by 1000; everything else passes through. -/
def convertValue (newData : JVal) (col : String) : JVal :=
  let value := (newData.getField col).getD .jnull
  if FOREIGN_KEY_FIELDS.contains col then .jnull
  else
    match value with
    | .jint n =>
      if containsSub col "date" && n < 100000 then .jstr (epochDayIso n)
      else if n > 100000000000 then .jdate (n / 1000)
      else value
    | _ => value

/-- `allColumns` then the privacy filter: metadata columns (leading `_`) and
private fields are removed (lines 152, 179). -/
def filteredColumns (newData : JVal) : List String :=
  ((objKeys newData).filter (fun k => !(startsUnderscore k))).filter
    (fun c => !(PRIVATE_FIELDS.contains c))

def filteredValues (newData : JVal) : List JVal :=
  (filteredColumns newData).map (convertValue newData)

def upsertPairs (newData : JVal) : List (String × JVal) :=
  (filteredColumns newData).zip (filteredValues newData)

/-- The `ON CONFLICT` assignment list of lines 220-224: every filtered column
except `sync_source` and `updated_at`, each bound to the value at that
column's first index in the insert column list (`columns.indexOf`). -/
def updatePairsOf (newData : JVal) : List (String × JVal) :=
  ((filteredColumns newData).filter (fun c => c ≠ "sync_source" && c ≠ "updated_at")).map
    (fun c => (c, (lookupStr (upsertPairs newData) c).getD .jnull))

/-! ## Local store -/

/-- A local row: primary key, the `updated_at` timestamp column (epoch ms,
`none` when NULL, read back as epoch 0 by the resolver), the optional
`version` column, and the remaining columns. -/
structure Row where
  id : JVal
  updatedAt : Option Int
  version : Option Int
  fields : List (String × JVal)

def DB : Type := String → List Row

def updateDB (db : DB) (t : String) (rows : List Row) : DB :=
  fun t' => if t' = t then rows else db t'

/-- The `SELECT * FROM t WHERE id = $1` row fetch: first row whose `id`
equals the bound key. -/
def findRow : List Row → JVal → Option Row
  | [], _ => none
  | r :: rs, rid => if r.id.eqScalar rid then some r else findRow rs rid

/-- Whether a bound value casts to a `timestamp` column: `Date` objects and
date strings cast (the conversion only ever produces ISO `YYYY-MM-DD`
strings) and NULL is accepted, while a raw number or boolean is rejected by
the database at bind time. -/
def bindsAsTimestamp : JVal → Bool
  | .jdate _ => true
  | .jstr _ => true
  | .jnull => true
  | _ => false

/-- Whether a bound value casts to an `integer` column. -/
def bindsAsInteger : JVal → Bool
  | .jint _ => true
  | .jnull => true
  | _ => false

/-- Bind-time type check over the typed columns the model tracks: a
statement binding a value incompatible with `updated_at` (timestamp) or
`version` (integer) fails at bind time with no effect, the error being
swallowed by the resolver's catch. -/
def bindOk (pairs : List (String × JVal)) : Bool :=
  (match lookupStr pairs "updated_at" with
   | some v => bindsAsTimestamp v
   | none => true) &&
  (match lookupStr pairs "version" with
   | some v => bindsAsInteger v
   | none => true)

/-- Milliseconds stored into the `updated_at` column from a successfully
bound value: a `Date` stores its epoch time; a bound date string stores the
parsed timestamp in the database, but string parsing is outside the model
(NULL here); NULL stores NULL. -/
def msOfVal : JVal → Option Int
  | .jdate m => some m
  | _ => none

def intOfVal : JVal → Option Int
  | .jint n => some n
  | _ => none

/-- Replace a column's value, appending the column when new. -/
def setField : List (String × JVal) → String → JVal → List (String × JVal)
  | [], k, v => [(k, v)]
  | (k', v') :: rest, k, v =>
    if k' = k then (k, v) :: rest else (k', v') :: setField rest k v

/-- Row produced by a plain INSERT of the bound column/value pairs. -/
def mkRow (pairs : List (String × JVal)) : Row :=
  { id := (lookupStr pairs "id").getD .jnull
    updatedAt := (lookupStr pairs "updated_at").bind msOfVal
    version := (lookupStr pairs "version").bind intOfVal
    fields := pairs.filter (fun p => p.1 ≠ "id" && p.1 ≠ "updated_at" && p.1 ≠ "version") }

/-- A single `SET col = $k` assignment applied to a row. -/
def applyAssign (acc : Row) (kv : String × JVal) : Row :=
  if kv.1 = "id" then { acc with id := kv.2 }
  else if kv.1 = "version" then { acc with version := intOfVal kv.2 }
  else { acc with fields := setField acc.fields kv.1 kv.2 }

/-- The `ON CONFLICT ... DO UPDATE SET` assignment: every update pair is
applied to the existing row, then `updated_at = NOW()` (lines 219-234). -/
def applyConflictUpdate (r : Row) (updatePairs : List (String × JVal)) (dbNow : Int) : Row :=
  { updatePairs.foldl applyAssign r with updatedAt := some dbNow }

/-- Update the first row satisfying the predicate, leaving the rest alone. -/
def updateFirst (q : Row → Bool) (f : Row → Row) : List Row → List Row
  | [] => []
  | r :: rs => if q r then f r :: rs else r :: updateFirst q f rs

/-- `INSERT ... ON CONFLICT (id) DO UPDATE`: if a row carries the inserted
`id` value, that row receives the update assignments; otherwise the bound
values are inserted as a new row. -/
def upsertRows (rows : List Row) (idv : JVal) (insertPairs updatePairs : List (String × JVal))
    (dbNow : Int) : List Row :=
  if rows.any (fun r => r.id.eqScalar idv) then
    updateFirst (fun r => r.id.eqScalar idv)
      (fun r => applyConflictUpdate r updatePairs dbNow) rows
  else rows ++ [mkRow insertPairs]

/-! ## Sync metrics (syncMetrics.js) -/

structure SyncEvent where
  source : String
  destination : String
  tableName : String
  recordId : JVal
  latencyMs : Int
  timestampMs : Int

structure RecordSyncEntry where
  latencyMs : Int
  timestampMs : Int
  tableName : String
  recordId : JVal
  direction : String
  source : String
  destination : String

structure Metrics where
  rings : String → List SyncEvent
  recordSyncTimes : List (String × RecordSyncEntry)

def initMetrics : Metrics :=
  { rings := fun _ => [], recordSyncTimes := [] }

/-- JS `Map.set`: an existing key is updated in place (keeping its insertion
position), a new key is appended. -/
def mapSet (l : List (String × RecordSyncEntry)) (k : String) (v : RecordSyncEntry) :
    List (String × RecordSyncEntry) :=
  match l with
  | [] => [(k, v)]
  | (k', v') :: rest => if k' = k then (k, v) :: rest else (k', v') :: mapSet rest k v

/-- `SyncMetrics.recordSync`: append to the per-direction ring and evict the
oldest event past 100; update the per-record map and evict the oldest key
past 1000 entries. Latencies are integral in the model, so `Math.round` is
the identity. -/
def recordSync (m : Metrics) (source destination tableName : String) (recordId : JVal)
    (latencyMs : Int) (nowMs : Int) : Metrics :=
  let direction := source ++ "-to-" ++ destination
  let event : SyncEvent :=
    { source := source, destination := destination, tableName := tableName,
      recordId := recordId, latencyMs := latencyMs, timestampMs := nowMs }
  let ring := m.rings direction ++ [event]
  let ring := if ring.length > 100 then ring.tail else ring
  let key := tableName ++ ":" ++ jvalToStr recordId
  let entry : RecordSyncEntry :=
    { latencyMs := latencyMs, timestampMs := nowMs, tableName := tableName,
      recordId := recordId, direction := direction, source := source,
      destination := destination }
  let rst := mapSet m.recordSyncTimes key entry
  let rst := if rst.length > 1000 then rst.tail else rst
  { rings := fun d => if d = direction then ring else m.rings d,
    recordSyncTimes := rst }

/-! ## Conflict resolver (conflictResolver.js) -/

/-- The clock readings a single message observes: `Date.now()` at handler
entry (`startMs`), `Date.now()` after the write (`endMs`), and the database
server's `NOW()` (`dbNowMs`). -/
structure Clock where
  startMs : Int
  endMs : Int
  dbNowMs : Int

inductive SqlOp where
  | select (table : String) (id : JVal)
  | delete (table : String) (id : JVal)
  | upsert (table : String) (cols : List String) (vals : List JVal)

structure RCResult where
  db : DB
  metrics : Metrics
  trace : List SqlOp
  decision : Option (Bool × String)

/-- The APPLY/SKIP decision of lines 79-134 once the local row has been
fetched: a missing row or a delete always applies; otherwise LWW with the
1000 ms loop-suppression window, then the 100 ms version tie-break. -/
def resolveDecision (existing : Option Row) (operation newData : JVal) : Bool × String :=
  match existing with
  | none => (true, "new_record")
  | some row =>
    if operation.isStr "d" then (true, "delete_operation")
    else
      let existingMs := row.updatedAt.getD 0
      match incomingMsOf newData with
      | none => (false, "older_timestamp")
      | some ti =>
        let timeDiff := (ti - existingMs).natAbs
        if timeDiff < 1000 then (false, "loop_prevention_rapid_update")
        else if ti > existingMs then (true, "newer_timestamp")
        else if timeDiff < 100 then
          let existingVersion := row.version.getD 0
          let incomingVersion :=
            match newData.getField "version" with
            | some (.jint n) => n
            | _ => 0
          if incomingVersion > existingVersion then (true, "higher_version")
          else (false, "same_or_older_version")
        else (false, "older_timestamp")

/-- `resolveConflict`: field extraction, early exits for missing data or
missing/falsy record id, the `SELECT`, the decision, then the chosen
mutation. An INSERT without an `id` column violates the primary key, and a
statement whose bound values fail the column type check never executes;
both are failed statements swallowed by the handler's catch. -/
def resolveConflict (topic : String) (key : Option JVal) (value : JVal)
    (source destination : String) (db : DB) (m : Metrics) (clk : Clock) : RCResult :=
  let tableName := tableNameOf topic
  let newData := newDataOf value
  let operation := operationOf value
  if !newData.truthy && !(operation.isStr "d") then ⟨db, m, [], none⟩
  else
    match jsTruthy? (recordIdOf key newData) with
    | none => ⟨db, m, [], none⟩
    | some recordId =>
      let existing := findRow (db tableName) recordId
      let dec := resolveDecision existing operation newData
      if dec.1 then
        if operation.isStr "d" then
          let rows' := (db tableName).filter (fun r => !(r.id.eqScalar recordId))
          ⟨updateDB db tableName rows', m,
            [.select tableName recordId, .delete tableName recordId], some dec⟩
        else
          let columns := filteredColumns newData
          let values := filteredValues newData
          let pairs := upsertPairs newData
          match lookupStr pairs "id" with
          | none => ⟨db, m, [.select tableName recordId], some dec⟩
          | some idv =>
            if bindOk pairs then
              let rows' :=
                upsertRows (db tableName) idv pairs (updatePairsOf newData) clk.dbNowMs
              let latency := latencyOf (sourceTsOf newData) clk.endMs clk.startMs
              let m' := recordSync m source destination tableName recordId latency clk.endMs
              ⟨updateDB db tableName rows', m',
                [.select tableName recordId, .upsert tableName columns values], some dec⟩
            else ⟨db, m, [.select tableName recordId], some dec⟩
      else
        ⟨db, m, [.select tableName recordId], some dec⟩

/-! ## Message handler (chinaConsumer handleMessage) -/

/-- `handleMessage` for the china-side consumer: tombstone skip, missing
sync-origin skip, the users privacy block, directional rules for products
and sales, the destination check, then conflict resolution. `key` and
`value` are the JSON-parsed message key and value (`none` = null). -/
def handleMessage (topic : String) (key value : Option JVal) (db : DB) (m : Metrics)
    (clk : Clock) : DB × Metrics × List SqlOp :=
  match value with
  | none => (db, m, [])
  | some v =>
    match jsTruthy? (syncOriginOf v) with
    | none => (db, m, [])
    | some so =>
      let destination := if so.isStr "india" then "china" else "india"
      let tableName := tableNameOf topic
      if tableName = "users" then (db, m, [])
      else if tableName = "products" && so.isStr "india" && (operationOf v).isStr "c" then
        (db, m, [])
      else if tableName = "sales" && so.isStr "china" then (db, m, [])
      else if destination ≠ "china" then (db, m, [])
      else
        let res := resolveConflict topic key v (jvalToStr so) destination db m clk
        (res.db, res.metrics, res.trace)

/-- One consumed message together with the clock readings it observes. -/
structure InMsg where
  topic : String
  key : Option JVal
  value : Option JVal
  clk : Clock

/-- Sequential processing of a batch of messages, accumulating the SQL
trace. -/
def processAll (msgs : List InMsg) (db : DB) (m : Metrics) : DB × Metrics × List SqlOp :=
  match msgs with
  | [] => (db, m, [])
  | msg :: rest =>
    let step := handleMessage msg.topic msg.key msg.value db m msg.clk
    let next := processAll rest step.1 step.2.1
    (next.1, next.2.1, step.2.2 ++ next.2.2)

/-! ## Auxiliary definitions for the stated properties -/

/-- Holds when a resolver outcome did not decide with one of the version
tie-break reasons. -/
def decisionReasonOK (res : RCResult) : Bool :=
  match res.decision with
  | some d => !(d.2 == "higher_version" || d.2 == "same_or_older_version")
  | none => true

/-- One call to `SyncMetrics.recordSync`, with the wall-clock time the call
observes. -/
structure RecEvt where
  source : String
  destination : String
  tableName : String
  recordId : JVal
  latencyMs : Int
  nowMs : Int

def dirOf (e : RecEvt) : String := e.source ++ "-to-" ++ e.destination

def toSyncEvent (e : RecEvt) : SyncEvent :=
  ⟨e.source, e.destination, e.tableName, e.recordId, e.latencyMs, e.nowMs⟩

def runRecordSyncs (m : Metrics) (evts : List RecEvt) : Metrics :=
  evts.foldl
    (fun acc e => recordSync acc e.source e.destination e.tableName e.recordId e.latencyMs e.nowMs)
    m

/-- The per-record map key one `recordSync` call addresses. -/
def mapKeyOf (e : RecEvt) : String := e.tableName ++ ":" ++ jvalToStr e.recordId

/-- The per-record map entry one `recordSync` call writes. -/
def mkEntry (e : RecEvt) : RecordSyncEntry :=
  ⟨e.latencyMs, e.nowMs, e.tableName, e.recordId, dirOf e, e.source, e.destination⟩

/-- Whether the per-column conversion would take the epoch-day date branch. -/
def dateBranchHit (col : String) (v : JVal) : Bool :=
  match v with
  | .jint n => containsSub col "date" && decide (n < 100000)
  | _ => false

/-- The microsecond-to-millisecond normalization alone: integers above
`10^11` become a `Date` at the value divided by 1000, everything else is
unchanged. -/
def bigIntNormalize (v : JVal) : JVal :=
  match v with
  | .jint n => if n > 100000000000 then .jdate (n / 1000) else v
  | _ => v

/-! ## Sample data used by witnesses and counterexamples -/

def sampleClock : Clock := ⟨1704070000000, 1704070000050, 1704070000025⟩

def sampleAfter : JVal := .jobj [("id", .jint 7), ("stock_quantity", .jint 8),
  ("updated_at", .jint 1704067205000000), ("version", .jint 2),
  ("created_by_user_id", .jint 42), ("username", .jstr "alice")]

def sampleUpdateMsg : JVal := .jobj [("payload", .jobj [("op", .jstr "u"),
  ("after", sampleAfter), ("_sync_origin", .jstr "india")])]

def sampleRow : Row := ⟨.jint 7, some 1704067200000, some 1, [("stock_quantity", .jint 5)]⟩

def sampleDb : DB := fun t => if t = "products" then [sampleRow] else []

def loopMsg : JVal := .jobj [("op", .jstr "u"), ("after", .jobj [("id", .jint 7),
  ("updated_at", .jint 1704067200800000)]), ("_sync_origin", .jstr "india")]

def loopRow : Row := ⟨.jint 7, some 1704067200500, none, []⟩

def loopDb : DB := fun t => if t = "products" then [loopRow] else []

def deleteMsg : JVal := .jobj [("op", .jstr "d"), ("after", .jobj [("id", .jint 7),
  ("updated_at", .jint 1704067200000000)]), ("_sync_origin", .jstr "india")]

def absentDeleteMsg : JVal := .jobj [("op", .jstr "d"), ("_sync_origin", .jstr "india")]

def falsyIdMsg : JVal := .jobj [("op", .jstr "d"), ("after", .jobj [("id", .jint 0)]),
  ("_sync_origin", .jstr "india")]

def futureMsg : JVal := .jobj [("op", .jstr "u"), ("after", .jobj [("id", .jint 1),
  ("updated_at", .jint 1704067215000000)]), ("_sync_origin", .jstr "india")]

def futureRow : Row := ⟨.jint 1, some 1704067210000, none, []⟩

def futureDb : DB := fun t => if t = "products" then [futureRow] else []

def pastClock : Clock := ⟨1704067199000, 1704067200000, 1704067200000⟩

def usersMsg : JVal := .jobj [("op", .jstr "c"), ("after", .jobj [("id", .jint 1),
  ("username", .jstr "bob")]), ("_sync_origin", .jstr "india")]

def usersInMsg : InMsg := ⟨"sync.users", none, some usersMsg, sampleClock⟩

def fullEntry : RecordSyncEntry := ⟨5, 0, "t", .jint 1, "india-to-china", "india", "china"⟩

/-- A metrics state whose per-record map is at its 1000-entry bound. -/
def fullMapMetrics : Metrics :=
  { rings := fun _ => [], recordSyncTimes := List.replicate 1000 ("x", fullEntry) }

def overflowEvt : RecEvt := ⟨"india", "china", "products", .jint 7, 42, 1704070000050⟩

/-! ## Helper lemmas -/

theorem eqScalar_eq {a b : JVal} (h : a.eqScalar b = true) : a = b := by
  cases a <;> cases b <;> simp_all [JVal.eqScalar]

theorem eqScalar_self_right {a b : JVal} (h : a.eqScalar b = true) : b.eqScalar b = true := by
  cases a <;> cases b <;> simp_all [JVal.eqScalar]

theorem truthy_of_getField {v : JVal} {k : String} {w : JVal} (h : v.getField k = some w) :
    v.truthy = true := by
  cases v <;> simp_all [JVal.getField, JVal.truthy]

theorem truthy_of_incomingMs {nd : JVal} {ti : Int} (h : incomingMsOf nd = some ti) :
    nd.truthy = true := by
  unfold incomingMsOf at h
  cases hg : nd.getField "updated_at" with
  | none => rw [hg] at h; cases h
  | some w => exact truthy_of_getField hg

theorem findRow_none_forall {rows : List Row} {rid : JVal} (h : findRow rows rid = none) :
    ∀ r ∈ rows, r.id.eqScalar rid = false := by
  induction rows with
  | nil => intro r hr; cases hr
  | cons x xs ih =>
    intro r hr
    unfold findRow at h
    by_cases hx : x.id.eqScalar rid = true
    · rw [if_pos hx] at h; cases h
    · rw [if_neg hx] at h
      rcases List.mem_cons.mp hr with h1 | h1
      · subst h1; simpa using hx
      · exact ih h r h1

theorem findRow_mem {rows : List Row} {rid : JVal} {r : Row} (h : findRow rows rid = some r) :
    r ∈ rows ∧ r.id.eqScalar rid = true := by
  induction rows with
  | nil => cases h
  | cons x xs ih =>
    unfold findRow at h
    by_cases hx : x.id.eqScalar rid = true
    · rw [if_pos hx] at h
      injection h with h1
      subst h1
      exact ⟨List.mem_cons_self x xs, hx⟩
    · rw [if_neg hx] at h
      obtain ⟨hm, hx'⟩ := ih h
      exact ⟨List.mem_cons_of_mem x hm, hx'⟩

theorem jsTruthyOpt_none_of_falsy {a : Option JVal} (h : jsTruthy? a = none) :
    ∀ v, a = some v → v.truthy = false := by
  intro v hv
  subst hv
  simp only [jsTruthy?] at h
  by_cases ht : v.truthy = true
  · rw [if_pos ht] at h; cases h
  · simpa using ht

/-! ## C10: falsy or absent record id -/

/-- Claim C10: when both `key.id` and `after.id` are absent or falsy (a
primary key of `0` or `""` included), `resolveConflict` returns before any
SQL statement is issued and no metrics are recorded, for every operation
code including deletes. -/
theorem falsy_record_id_is_noop (topic : String) (key : Option JVal) (value : JVal)
    (source destination : String) (db : DB) (m : Metrics) (clk : Clock)
    (h : jsTruthy? (recordIdOf key (newDataOf value)) = none) :
    resolveConflict topic key value source destination db m clk = ⟨db, m, [], none⟩ := by
  unfold resolveConflict
  simp only [h]
  split <;> rfl

/-- Witness for C10 at a concrete delete envelope whose primary key is the
falsy number `0`. -/
theorem falsy_record_id_is_noop_witness :
    resolveConflict "sync.products" none falsyIdMsg "india" "china" sampleDb initMetrics
      sampleClock = ⟨sampleDb, initMetrics, [], none⟩ :=
  falsy_record_id_is_noop "sync.products" none falsyIdMsg "india" "china" sampleDb
    initMetrics sampleClock rfl

/-! ## C5: epoch-day date columns -/

theorem fk_fields_no_date {col : String} (hc : containsSub col "date" = true) :
    FOREIGN_KEY_FIELDS.contains col = false := by
  cases hcc : FOREIGN_KEY_FIELDS.contains col with
  | false => rfl
  | true =>
    exfalso
    have hmem : col ∈ FOREIGN_KEY_FIELDS := by
      simpa using hcc
    simp only [FOREIGN_KEY_FIELDS, List.mem_cons, List.mem_singleton] at hmem
    rcases hmem with h1 | h1 | h1
    · subst h1; exact absurd hc (by decide)
    · subst h1; exact absurd hc (by decide)
    · cases h1

theorem mem_zip_map {α β : Type} (f : α → β) (l : List α) (c : α) (h : c ∈ l) :
    (c, f c) ∈ l.zip (l.map f) := by
  induction l with
  | nil => cases h
  | cons a t ih =>
    rcases List.mem_cons.mp h with h1 | h1
    · subst h1; simp
    · simp only [List.map_cons, List.zip_cons_cons, List.mem_cons]
      exact Or.inr (ih h1)

/-- Claim C5 (amended): a column whose name contains `date` holding an
integer below `10^5` is converted to the ISO `YYYY-MM-DD` date that many
days after 1970-01-01 (before it for negative values), and that converted
string is what the UPSERT binds for the column. The concrete value `19723`
yields `2024-01-01`. -/
theorem date_column_epoch_day_conversion (nd : JVal) (col : String) (n : Int)
    (hv : nd.getField col = some (.jint n))
    (hc : containsSub col "date" = true)
    (h5 : n < 100000) :
    convertValue nd col = .jstr (epochDayIso n) ∧
      (col ∈ filteredColumns nd → (col, .jstr (epochDayIso n)) ∈ upsertPairs nd) := by
  have hcv : convertValue nd col = .jstr (epochDayIso n) := by
    unfold convertValue
    rw [hv, fk_fields_no_date hc]
    simp only [Option.getD_some, Bool.false_eq_true, if_false]
    rw [hc]
    simp [h5]
  refine ⟨hcv, fun hmem => ?_⟩
  have := mem_zip_map (convertValue nd) (filteredColumns nd) col hmem
  rw [hcv] at this
  exact this

/-- Witness for C5 at the concrete epoch-day `19723` on a `sale_date`
column. -/
theorem date_column_epoch_day_conversion_witness :
    convertValue (.jobj [("sale_date", .jint 19723)]) "sale_date" = .jstr "2024-01-01" ∧
      convertValue (.jobj [("birth_date", .jint (-5))]) "birth_date" = .jstr "1969-12-27" :=
  ⟨(date_column_epoch_day_conversion (.jobj [("sale_date", .jint 19723)]) "sale_date" 19723
      rfl (by decide) (by decide)).1,
    (date_column_epoch_day_conversion (.jobj [("birth_date", .jint (-5))]) "birth_date" (-5)
      rfl (by decide) (by decide)).1⟩

/-- Counterexample for C5 as stated: the code stores epoch-day `19723` as
`2024-01-01` (19723 days after 1970-01-01), not as `2024-01-04`. -/
theorem date_column_epoch_day_counterexample :
    convertValue (.jobj [("sale_date", .jint 19723)]) "sale_date" = .jstr "2024-01-01" ∧
      "2024-01-01" ≠ "2024-01-04" :=
  ⟨rfl, by decide⟩

/-! ## C6: microsecond normalization is not specific to timestamp columns -/

/-- Claim C6 (amended): outside the foreign-key and epoch-day branches, the
conversion turns any integer above `10^11` into a `Date` at the value
divided by 1000 — whatever the column name — and passes every other value
through unchanged. -/
theorem value_conversion_beyond_at_columns (nd : JVal) (col : String) (v : JVal)
    (hv : nd.getField col = some v)
    (hfk : FOREIGN_KEY_FIELDS.contains col = false)
    (hdate : dateBranchHit col v = false) :
    convertValue nd col = bigIntNormalize v := by
  cases v with
  | jint n =>
    unfold convertValue bigIntNormalize
    simp only [dateBranchHit] at hdate
    rw [hv, hfk]
    simp only [Option.getD_some, Bool.false_eq_true, if_false]
    rw [hdate]
    simp
  | jnull => unfold convertValue bigIntNormalize; rw [hv, hfk]; simp
  | jstr s => unfold convertValue bigIntNormalize; rw [hv, hfk]; simp
  | jbool b => unfold convertValue bigIntNormalize; rw [hv, hfk]; simp
  | jdate d => unfold convertValue bigIntNormalize; rw [hv, hfk]; simp
  | jobj fs => unfold convertValue bigIntNormalize; rw [hv, hfk]; simp

/-- Witness for C6: the non-timestamp column `quantity` holding an integer
above `10^11` is converted, exercising the amended rule. -/
theorem value_conversion_beyond_at_columns_witness :
    convertValue (.jobj [("quantity", .jint 200000000000)]) "quantity" = .jdate 200000000 :=
  value_conversion_beyond_at_columns (.jobj [("quantity", .jint 200000000000)]) "quantity"
    (.jint 200000000000) rfl (by decide) (by decide)

/-- Counterexample for C6 as stated: a column that is not `*_at`, not a date
column, not private, not a foreign key and not metadata does NOT pass
through unchanged when its value exceeds `10^11`; it becomes a `Date`. -/
theorem value_conversion_counterexample :
    convertValue (.jobj [("quantity", .jint 200000000000)]) "quantity" = .jdate 200000000 ∧
      JVal.jdate 200000000 ≠ JVal.jint 200000000000 :=
  ⟨rfl, fun h => JVal.noConfusion h⟩

/-! ## C1: the users table is never touched -/

theorem handleMessage_users_noop (topic : String) (key value : Option JVal) (db : DB)
    (m : Metrics) (clk : Clock) (h : tableNameOf topic = "users") :
    handleMessage topic key value db m clk = (db, m, []) := by
  unfold handleMessage
  cases value with
  | none => rfl
  | some v =>
    rcases hso : jsTruthy? (syncOriginOf v) with _ | so
    · simp only [hso]
    · simp only [hso, h]
      simp

/-- Claim C1: for any batch of consumed messages whose topic maps to the
`users` table, the handler returns before issuing any SQL statement, so the
whole local store — the `users` table in particular — and the metrics are
unchanged. -/
theorem users_table_never_touched (msgs : List InMsg) (db : DB) (m : Metrics)
    (h : ∀ msg ∈ msgs, tableNameOf msg.topic = "users") :
    processAll msgs db m = (db, m, []) := by
  induction msgs generalizing db m with
  | nil => rfl
  | cons msg rest ih =>
    unfold processAll
    simp only [handleMessage_users_noop msg.topic msg.key msg.value db m msg.clk
        (h msg (List.mem_cons_self msg rest)),
      ih db m (fun x hx => h x (List.mem_cons_of_mem msg hx))]
    rfl

/-- Witness for C1 on a concrete `sync.users` create envelope. -/
theorem users_table_never_touched_witness :
    processAll [usersInMsg] sampleDb initMetrics = (sampleDb, initMetrics, []) :=
  users_table_never_touched [usersInMsg] sampleDb initMetrics
    (fun msg hm => by rw [List.mem_singleton.mp hm]; rfl)

/-! ## C8: delete of an absent row -/

/-- Claim C8 (amended): a delete whose primary key has no matching local row
is decided APPLY with the code's generic missing-row reason `new_record`
(not `delete_of_absent`), and the executed DELETE is a no-op: the store and
metrics are unchanged. -/
theorem delete_of_absent_row (topic : String) (key : Option JVal) (value : JVal)
    (source destination : String) (db : DB) (m : Metrics) (clk : Clock) {rid : JVal}
    (hop : (operationOf value).isStr "d" = true)
    (hrid : jsTruthy? (recordIdOf key (newDataOf value)) = some rid)
    (hrow : findRow (db (tableNameOf topic)) rid = none) :
    resolveConflict topic key value source destination db m clk =
      ⟨db, m, [.select (tableNameOf topic) rid, .delete (tableNameOf topic) rid],
        some (true, "new_record")⟩ := by
  have hfilter : (db (tableNameOf topic)).filter (fun r => !(r.id.eqScalar rid)) =
      db (tableNameOf topic) :=
    List.filter_eq_self.mpr (fun r hr => by
      have hnr := findRow_none_forall hrow r hr
      simp [hnr])
  have hdb : updateDB db (tableNameOf topic) (db (tableNameOf topic)) = db := by
    funext t'
    unfold updateDB
    split
    · rename_i ht; rw [ht]
    · rfl
  have hdec : resolveDecision none (operationOf value) (newDataOf value) =
      (true, "new_record") := rfl
  unfold resolveConflict
  simp only [hop, hrid, hrow, hdec, Bool.not_true, Bool.and_false, Bool.false_eq_true,
    if_false]
  simp [hfilter, hdb]

/-- Witness for C8: deleting id 99 from a table that only holds id 7. -/
theorem delete_of_absent_row_witness :
    resolveConflict "sync.products" (some (.jobj [("id", .jint 99)])) absentDeleteMsg "india"
      "china" sampleDb initMetrics sampleClock =
      ⟨sampleDb, initMetrics, [.select "products" (.jint 99), .delete "products" (.jint 99)],
        some (true, "new_record")⟩ :=
  delete_of_absent_row "sync.products" (some (.jobj [("id", .jint 99)])) absentDeleteMsg
    "india" "china" sampleDb initMetrics sampleClock rfl rfl rfl

/-- Counterexample for C8 as stated: the reason attached to an applied
delete-of-absent is `new_record`, not `delete_of_absent`. -/
theorem delete_of_absent_reason_counterexample :
    (resolveConflict "sync.products" (some (.jobj [("id", .jint 99)])) absentDeleteMsg "india"
        "china" sampleDb initMetrics sampleClock).decision = some (true, "new_record") ∧
      "new_record" ≠ "delete_of_absent" :=
  ⟨rfl, by decide⟩

/-! ## C2: loop suppression -/

/-- Claim C2 (amended): for a non-delete envelope whose table has a local
row and whose incoming `updated_at`, normalized to milliseconds, differs
from the row's `updated_at` by strictly less than 1000 ms, the resolver
decides SKIP with reason `loop_prevention_rapid_update` after only the
`SELECT`, leaving store and metrics unchanged. -/
theorem loop_prevention_skips (topic : String) (key : Option JVal) (value : JVal)
    (source destination : String) (db : DB) (m : Metrics) (clk : Clock) {rid : JVal}
    {row : Row} {ti : Int}
    (hop : (operationOf value).isStr "d" = false)
    (hrid : jsTruthy? (recordIdOf key (newDataOf value)) = some rid)
    (hrow : findRow (db (tableNameOf topic)) rid = some row)
    (hti : incomingMsOf (newDataOf value) = some ti)
    (hdiff : (ti - row.updatedAt.getD 0).natAbs < 1000) :
    resolveConflict topic key value source destination db m clk =
      ⟨db, m, [.select (tableNameOf topic) rid],
        some (false, "loop_prevention_rapid_update")⟩ := by
  have hnd : (newDataOf value).truthy = true := truthy_of_incomingMs hti
  have hdec : resolveDecision (some row) (operationOf value) (newDataOf value) =
      (false, "loop_prevention_rapid_update") := by
    simp only [resolveDecision, hop, Bool.false_eq_true, if_false, hti]
    rw [if_pos hdiff]
  unfold resolveConflict
  simp only [hnd, hrid, hrow, hdec, Bool.not_true, Bool.false_and, Bool.false_eq_true,
    if_false]

/-- Witness for C2: an update 300 ms apart from the local row is skipped. -/
theorem loop_prevention_skips_witness :
    resolveConflict "sync.products" none loopMsg "india" "china" loopDb initMetrics
      sampleClock =
      ⟨loopDb, initMetrics, [.select "products" (.jint 7)],
        some (false, "loop_prevention_rapid_update")⟩ :=
  loop_prevention_skips "sync.products" none loopMsg "india" "china" loopDb initMetrics
    sampleClock rfl rfl rfl rfl (by decide)

/-- Counterexample for C2 as stated: a delete envelope with an existing
local row and `after.updated_at` equal to the row's `updated_at` (difference
0 ms) is NOT skipped: the resolver decides APPLY `delete_operation` and the
row is removed. -/
theorem loop_prevention_delete_counterexample :
    findRow (sampleDb "products") (.jint 7) = some sampleRow ∧
      incomingMsOf (newDataOf deleteMsg) = some 1704067200000 ∧
      sampleRow.updatedAt.getD 0 = 1704067200000 ∧
      (resolveConflict "sync.products" none deleteMsg "india" "china" sampleDb initMetrics
          sampleClock).decision = some (true, "delete_operation") ∧
      ((resolveConflict "sync.products" none deleteMsg "india" "china" sampleDb initMetrics
          sampleClock).db "products").length = 0 ∧
      (sampleDb "products").length = 1 :=
  ⟨rfl, rfl, rfl, rfl, rfl, rfl⟩

/-! ## C3: the version tie-break is unreachable -/

theorem resolveDecision_no_tiebreak_reason (ex : Option Row) (op nd : JVal) :
    ((resolveDecision ex op nd).2 == "higher_version" ||
      (resolveDecision ex op nd).2 == "same_or_older_version") = false := by
  unfold resolveDecision
  cases ex with
  | none => rfl
  | some row =>
    by_cases hd : op.isStr "d" = true
    · simp [hd]
    · cases hti : incomingMsOf nd with
      | none => simp [hd, hti]
      | some ti =>
        by_cases h1 : (ti - row.updatedAt.getD 0).natAbs < 1000
        · simp [hd, hti, h1]
        · by_cases h2 : ti > row.updatedAt.getD 0
          · simp [hd, hti, h1, h2]
          · have h3 : ¬ ((ti - row.updatedAt.getD 0).natAbs < 100) := by omega
            simp [hd, hti, h1, h2, h3]

/-- Claim C3: the resolver never reaches the version tie-break: no outcome
of `resolveConflict` carries reason `higher_version` or
`same_or_older_version`, because any timestamp difference below 1000 ms
(which subsumes the 100 ms tie window and exact equality) is decided SKIP
with reason `loop_prevention_rapid_update` first. -/
theorem version_tiebreak_unreachable (topic : String) (key : Option JVal) (value : JVal)
    (source destination : String) (db : DB) (m : Metrics) (clk : Clock) :
    decisionReasonOK (resolveConflict topic key value source destination db m clk) = true := by
  unfold resolveConflict
  dsimp only
  split
  · rfl
  · split
    · rfl
    · split
      · split
        · simp [decisionReasonOK, resolveDecision_no_tiebreak_reason]
        · split
          · simp [decisionReasonOK, resolveDecision_no_tiebreak_reason]
          · split <;> simp [decisionReasonOK, resolveDecision_no_tiebreak_reason]
      · simp [decisionReasonOK, resolveDecision_no_tiebreak_reason]

/-! ## C7: metrics per executed mutation -/

/-- Claim C7 (amended): an executed DELETE records no sync event (the
metrics store is unchanged), while an executed INSERT/UPSERT records exactly
one sync event, whose latency is wall-clock-now minus the source timestamp
when that is known (truthy), and now minus the receipt time otherwise. -/
theorem sink_mutation_metrics (topic : String) (key : Option JVal) (value : JVal)
    (source destination : String) (db : DB) (m : Metrics) (clk : Clock) :
    (∀ t rid, SqlOp.delete t rid ∈
        (resolveConflict topic key value source destination db m clk).trace →
        (resolveConflict topic key value source destination db m clk).metrics = m) ∧
      (∀ t cs vs, SqlOp.upsert t cs vs ∈
        (resolveConflict topic key value source destination db m clk).trace →
        ∃ rid, jsTruthy? (recordIdOf key (newDataOf value)) = some rid ∧
          (resolveConflict topic key value source destination db m clk).metrics =
            recordSync m source destination (tableNameOf topic) rid
              (latencyOf (sourceTsOf (newDataOf value)) clk.endMs clk.startMs) clk.endMs) := by
  unfold resolveConflict
  dsimp only
  split
  · simp
  · split
    · simp
    · rename_i recordId hrid
      split
      · split
        · constructor
          · intro t rid _
            rfl
          · intro t cs vs hmem
            simp at hmem
        · split
          · constructor
            · intro t rid hmem
              simp at hmem
            · intro t cs vs hmem
              simp at hmem
          · split
            · constructor
              · intro t rid hmem
                simp at hmem
              · intro t cs vs _
                exact ⟨recordId, hrid, rfl⟩
            · constructor
              · intro t rid hmem
                simp at hmem
              · intro t cs vs hmem
                simp at hmem
      · constructor
        · intro t rid hmem
          simp at hmem
        · intro t cs vs hmem
          simp at hmem

/-- Witness for C7: a successfully applied stock update records exactly one
sync event with the source-timestamp latency. -/
theorem sink_mutation_metrics_witness :
    (resolveConflict "sync.products" (some (.jobj [("id", .jint 7)])) sampleUpdateMsg "india"
        "china" sampleDb initMetrics sampleClock).metrics =
      recordSync initMetrics "india" "china" "products" (.jint 7)
        (latencyOf (sourceTsOf (newDataOf sampleUpdateMsg)) sampleClock.endMs
          sampleClock.startMs) sampleClock.endMs := by
  obtain ⟨rid, hrid, hm⟩ :=
    (sink_mutation_metrics "sync.products" (some (.jobj [("id", .jint 7)])) sampleUpdateMsg
        "india" "china" sampleDb initMetrics sampleClock).2 "products"
      (filteredColumns (newDataOf sampleUpdateMsg)) (filteredValues (newDataOf sampleUpdateMsg))
      (List.mem_cons_of_mem _ (List.mem_cons_self _ _))
  have hr : rid = .jint 7 := by
    have h7 : jsTruthy? (recordIdOf (some (.jobj [("id", .jint 7)]))
        (newDataOf sampleUpdateMsg)) = some (.jint 7) := rfl
    rw [h7] at hrid
    exact (Option.some.inj hrid).symm
  subst hr
  exact hm

/-- Counterexample for C7 as stated: an executed DELETE mutation records no
sync event at all — the metrics store stays empty. -/
theorem sink_delete_no_metrics_counterexample :
    SqlOp.delete "products" (.jint 7) ∈
      (resolveConflict "sync.products" none deleteMsg "india" "china" sampleDb initMetrics
        sampleClock).trace ∧
      (resolveConflict "sync.products" none deleteMsg "india" "china" sampleDb initMetrics
        sampleClock).metrics.recordSyncTimes.length = 0 ∧
      ((resolveConflict "sync.products" none deleteMsg "india" "china" sampleDb initMetrics
        sampleClock).metrics.rings "india-to-china").length = 0 :=
  ⟨List.mem_cons_of_mem _ (List.mem_cons_self _ _), rfl, rfl⟩

/-! ## C9: metrics stay bounded -/

theorem mapSet_length_le (l : List (String × RecordSyncEntry)) (k : String)
    (v : RecordSyncEntry) : (mapSet l k v).length ≤ l.length + 1 := by
  induction l with
  | nil => simp [mapSet]
  | cons a t ih =>
    unfold mapSet
    split
    · simp
    · simp only [List.length_cons]
      omega

theorem recordSync_map_bound (m : Metrics) (src dst tn : String) (rid : JVal)
    (lat now : Int) (h : m.recordSyncTimes.length ≤ 1000) :
    (recordSync m src dst tn rid lat now).recordSyncTimes.length ≤ 1000 := by
  unfold recordSync
  dsimp only
  have hle := mapSet_length_le m.recordSyncTimes (tn ++ ":" ++ jvalToStr rid)
    { latencyMs := lat, timestampMs := now, tableName := tn, recordId := rid,
      direction := src ++ "-to-" ++ dst, source := src, destination := dst }
  split
  · simp only [List.length_tail]
    omega
  · omega

theorem ring_push_shift_model (l : List SyncEvent) (e : SyncEvent) :
    (if (l.drop (l.length - 100) ++ [e]).length > 100 then (l.drop (l.length - 100) ++ [e]).tail
      else l.drop (l.length - 100) ++ [e]) =
      (l ++ [e]).drop ((l ++ [e]).length - 100) := by
  have hd : (l.drop (l.length - 100)).length = l.length - (l.length - 100) :=
    List.length_drop _ _
  by_cases h : l.length < 100
  · have h0 : l.length - 100 = 0 := by omega
    have h1 : (l ++ [e]).length - 100 = 0 := by
      simp only [List.length_append, List.length_singleton]
      omega
    rw [h0, h1]
    simp only [List.drop_zero]
    rw [if_neg]
    simp only [List.length_append, List.length_drop, List.length_singleton]
    omega
  · have h100 : (l.drop (l.length - 100)).length = 100 := by rw [hd]; omega
    have hgt : (l.drop (l.length - 100) ++ [e]).length > 100 := by
      simp only [List.length_append, h100, List.length_singleton]
      omega
    rw [if_pos hgt]
    have hle2 : (l ++ [e]).length - 100 = (l.length - 100) + 1 := by
      simp only [List.length_append, List.length_singleton]
      omega
    rw [hle2]
    rw [List.drop_append_of_le_length (by omega)]
    cases hcons : l.drop (l.length - 100) with
    | nil => rw [hcons] at h100; simp at h100
    | cons x xs =>
      simp only [List.cons_append, List.tail_cons]
      have hxs : xs = l.drop (l.length - 100 + 1) := by
        have htl := List.tail_drop l (l.length - 100)
        rw [hcons] at htl
        simpa using htl
      rw [hxs]

theorem runRecordSyncs_state (evts : List RecEvt) :
    (∀ d, (runRecordSyncs initMetrics evts).rings d =
      ((evts.filter (fun e => dirOf e == d)).map toSyncEvent).drop
        (((evts.filter (fun e => dirOf e == d)).map toSyncEvent).length - 100)) ∧
      (runRecordSyncs initMetrics evts).recordSyncTimes.length ≤ 1000 := by
  induction evts using List.reverseRecOn with
  | nil => exact ⟨fun d => rfl, by simp [runRecordSyncs, initMetrics]⟩
  | append_singleton l e ih =>
    obtain ⟨ihr, ihm⟩ := ih
    have hfold : runRecordSyncs initMetrics (l ++ [e]) =
        recordSync (runRecordSyncs initMetrics l) e.source e.destination e.tableName
          e.recordId e.latencyMs e.nowMs := by
      unfold runRecordSyncs
      rw [List.foldl_append]
      rfl
    constructor
    · intro d
      rw [hfold]
      unfold recordSync
      dsimp only
      by_cases hdir : d = e.source ++ "-to-" ++ e.destination
      · rw [if_pos hdir]
        have hfe : (l ++ [e]).filter (fun x => dirOf x == d) =
            l.filter (fun x => dirOf x == d) ++ [e] := by
          rw [List.filter_append]
          simp only [List.filter_cons, List.filter_nil]
          rw [if_pos]
          simp only [dirOf, hdir, beq_self_eq_true]
        rw [hfe, List.map_append, List.map_cons, List.map_nil]
        rw [← hdir, ihr d]
        exact ring_push_shift_model _ _
      · rw [if_neg hdir]
        have hfe : (l ++ [e]).filter (fun x => dirOf x == d) =
            l.filter (fun x => dirOf x == d) := by
          rw [List.filter_append]
          simp only [List.filter_cons, List.filter_nil]
          rw [if_neg]
          · simp
          · simp only [dirOf, beq_iff_eq]
            exact fun hc => hdir hc.symm
        rw [hfe]
        exact ihr d
    · rw [hfold]
      exact recordSync_map_bound _ _ _ _ _ _ _ ihm

theorem mapSet_fresh (l : List (String × RecordSyncEntry)) (k : String) (v : RecordSyncEntry)
    (h : ∀ p ∈ l, p.1 ≠ k) : mapSet l k v = l ++ [(k, v)] := by
  induction l with
  | nil => rfl
  | cons a t ih =>
    obtain ⟨k1, v1⟩ := a
    unfold mapSet
    rw [if_neg (h (k1, v1) (List.mem_cons_self _ _))]
    rw [ih (fun p hp => h p (List.mem_cons_of_mem _ hp))]
    rfl

theorem mapSet_mem_keys (l : List (String × RecordSyncEntry)) (k : String)
    (v : RecordSyncEntry) (h : ∃ p ∈ l, p.1 = k) :
    (mapSet l k v).map Prod.fst = l.map Prod.fst ∧ (mapSet l k v).length = l.length := by
  induction l with
  | nil =>
    obtain ⟨p, hp, _⟩ := h
    cases hp
  | cons a t ih =>
    obtain ⟨k1, v1⟩ := a
    unfold mapSet
    by_cases hk : k1 = k
    · rw [if_pos hk]
      exact ⟨by simp [hk], by simp⟩
    · rw [if_neg hk]
      have h' : ∃ p ∈ t, p.1 = k := by
        obtain ⟨p, hp, hpk⟩ := h
        rcases List.mem_cons.mp hp with h1 | h1
        · exfalso
          rw [h1] at hpk
          exact hk hpk
        · exact ⟨p, h1, hpk⟩
      obtain ⟨hkeys, hlen⟩ := ih h'
      exact ⟨by simp [hkeys], by simp [hlen]⟩

/-- Claim C9: after any sequence of recorded sync events, each per-direction
ring holds exactly `min` (events recorded for that direction) `100` entries
— and is precisely the suffix of the newest 100, so the oldest is evicted
first — while the per-record map never exceeds 1000 entries and obeys the
same FIFO discipline: recording an event either updates a key in place, or
appends the new key at the back, or — exactly when the key is new and the
map is at its 1000-entry bound — evicts the front entry (the earliest
inserted) and appends the new one at the back. -/
theorem metrics_bounded (evts : List RecEvt) (d : String) :
    ((runRecordSyncs initMetrics evts).rings d).length =
      min ((evts.filter (fun e => dirOf e == d)).length) 100 ∧
      (runRecordSyncs initMetrics evts).rings d =
        ((evts.filter (fun e => dirOf e == d)).map toSyncEvent).drop
          (((evts.filter (fun e => dirOf e == d)).map toSyncEvent).length - 100) ∧
      (runRecordSyncs initMetrics evts).recordSyncTimes.length ≤ 1000 ∧
      (∀ (m : Metrics) (e : RecEvt),
        (∀ p ∈ m.recordSyncTimes, p.1 ≠ mapKeyOf e) →
        m.recordSyncTimes.length = 1000 →
        (recordSync m e.source e.destination e.tableName e.recordId e.latencyMs
            e.nowMs).recordSyncTimes =
          m.recordSyncTimes.tail ++ [(mapKeyOf e, mkEntry e)]) ∧
      (∀ (m : Metrics) (e : RecEvt),
        m.recordSyncTimes.length ≤ 1000 →
        (recordSync m e.source e.destination e.tableName e.recordId e.latencyMs
              e.nowMs).recordSyncTimes.map Prod.fst =
            m.recordSyncTimes.map Prod.fst ∨
          (recordSync m e.source e.destination e.tableName e.recordId e.latencyMs
              e.nowMs).recordSyncTimes.map Prod.fst =
            m.recordSyncTimes.map Prod.fst ++ [mapKeyOf e] ∨
          (recordSync m e.source e.destination e.tableName e.recordId e.latencyMs
              e.nowMs).recordSyncTimes.map Prod.fst =
            (m.recordSyncTimes.map Prod.fst).tail ++ [mapKeyOf e]) := by
  obtain ⟨hr, hm⟩ := runRecordSyncs_state evts
  refine ⟨?_, hr d, hm, ?_, ?_⟩
  · rw [hr d, List.length_drop, List.length_map]
    omega
  · intro m e hfresh hlen
    simp only [mapKeyOf] at hfresh
    unfold recordSync
    dsimp only
    rw [mapSet_fresh _ _ _ hfresh]
    have hgt : (m.recordSyncTimes ++
        [(e.tableName ++ ":" ++ jvalToStr e.recordId,
          { latencyMs := e.latencyMs, timestampMs := e.nowMs, tableName := e.tableName,
            recordId := e.recordId, direction := e.source ++ "-to-" ++ e.destination,
            source := e.source, destination := e.destination : RecordSyncEntry})]).length >
        1000 := by
      rw [List.length_append, hlen]
      simp
    rw [if_pos hgt]
    cases hcur : m.recordSyncTimes with
    | nil => rw [hcur] at hlen; simp at hlen
    | cons a t => rfl
  · intro m e hle
    unfold recordSync
    dsimp only
    by_cases hk : ∃ p ∈ m.recordSyncTimes, p.1 = e.tableName ++ ":" ++ jvalToStr e.recordId
    · obtain ⟨hkeys, hlenEq⟩ := mapSet_mem_keys m.recordSyncTimes _
        { latencyMs := e.latencyMs, timestampMs := e.nowMs, tableName := e.tableName,
          recordId := e.recordId, direction := e.source ++ "-to-" ++ e.destination,
          source := e.source, destination := e.destination } hk
      have hnot : ¬((mapSet m.recordSyncTimes
          (e.tableName ++ ":" ++ jvalToStr e.recordId)
          { latencyMs := e.latencyMs, timestampMs := e.nowMs, tableName := e.tableName,
            recordId := e.recordId, direction := e.source ++ "-to-" ++ e.destination,
            source := e.source, destination := e.destination }).length > 1000) := by
        rw [hlenEq]
        omega
      rw [if_neg hnot]
      exact Or.inl hkeys
    · have hfresh : ∀ p ∈ m.recordSyncTimes,
          p.1 ≠ e.tableName ++ ":" ++ jvalToStr e.recordId := by
        intro p hp hpk
        exact hk ⟨p, hp, hpk⟩
      rw [mapSet_fresh _ _ _ hfresh]
      by_cases hfull : (m.recordSyncTimes ++
          [(e.tableName ++ ":" ++ jvalToStr e.recordId,
            { latencyMs := e.latencyMs, timestampMs := e.nowMs, tableName := e.tableName,
              recordId := e.recordId, direction := e.source ++ "-to-" ++ e.destination,
              source := e.source, destination := e.destination : RecordSyncEntry})]).length >
          1000
      · rw [if_pos hfull]
        refine Or.inr (Or.inr ?_)
        cases hcur : m.recordSyncTimes with
        | nil =>
          rw [hcur] at hfull
          simp at hfull
        | cons a t => simp [mapKeyOf, List.map_append]
      · rw [if_neg hfull]
        refine Or.inr (Or.inl ?_)
        simp [mapKeyOf, List.map_append]

/-- Witness for C9's eviction conjunct: recording a fresh key against a map
at its 1000-entry bound drops exactly the front entry and appends the new
one at the back. -/
theorem metrics_bounded_witness :
    (recordSync fullMapMetrics "india" "china" "products" (.jint 7) 42
        1704070000050).recordSyncTimes =
      (List.replicate 1000 (("x", fullEntry))).tail ++
        [(mapKeyOf overflowEvt, mkEntry overflowEvt)] :=
  (metrics_bounded [] "india-to-china").2.2.2.1 fullMapMetrics overflowEvt
    (fun p hp => by
      rw [List.eq_of_mem_replicate hp]
      decide)
    (by
      show (List.replicate 1000 (("x", fullEntry))).length = 1000
      rw [List.length_replicate])

/-! ## C4: updated_at monotonicity -/

theorem findRow_append_one {rows : List Row} {x : Row} {rid : JVal} {r : Row}
    (hr : findRow rows rid = some r) : findRow (rows ++ [x]) rid = some r := by
  induction rows with
  | nil => cases hr
  | cons y ys ih =>
    rw [List.cons_append]
    unfold findRow at hr ⊢
    by_cases hy : y.id.eqScalar rid = true
    · rw [if_pos hy] at hr ⊢
      exact hr
    · rw [if_neg hy] at hr ⊢
      exact ih hr

theorem findRow_filter_stable {rows : List Row} {rid did : JVal} {r r' : Row}
    (hr : findRow rows rid = some r)
    (hr' : findRow (rows.filter (fun x => !(x.id.eqScalar did))) rid = some r') :
    r' = r := by
  induction rows with
  | nil => cases hr
  | cons x xs ih =>
    unfold findRow at hr
    by_cases hp : x.id.eqScalar rid = true
    · rw [if_pos hp] at hr
      injection hr with hxr
      by_cases hd : x.id.eqScalar did = true
      · exfalso
        rw [List.filter_cons, if_neg (by simp [hd])] at hr'
        obtain ⟨hmem, hpr'⟩ := findRow_mem hr'
        have hsurv : (!(r'.id.eqScalar did)) = true := (List.mem_filter.mp hmem).2
        have e1 : r'.id = rid := eqScalar_eq hpr'
        have e4 : did = rid := by
          rw [← eqScalar_eq hd]
          exact eqScalar_eq hp
        have e2 : x.id = rid := eqScalar_eq hp
        rw [e1, e4] at hsurv
        rw [e2] at hp
        rw [hp] at hsurv
        simp at hsurv
      · rw [List.filter_cons, if_pos (by simp [hd])] at hr'
        unfold findRow at hr'
        rw [if_pos hp] at hr'
        injection hr' with h2
        rw [← h2, ← hxr]
    · rw [if_neg hp] at hr
      by_cases hd : x.id.eqScalar did = true
      · rw [List.filter_cons, if_neg (by simp [hd])] at hr'
        exact ih hr hr'
      · rw [List.filter_cons, if_pos (by simp [hd])] at hr'
        unfold findRow at hr'
        rw [if_neg hp] at hr'
        exact ih hr hr'

theorem findRow_updateFirst {q : Row → Bool} {f : Row → Row}
    (hid : ∀ s, q s = true → (f s).id = s.id) :
    ∀ {rows : List Row} {rid : JVal} {r r' : Row},
      findRow rows rid = some r →
      findRow (updateFirst q f rows) rid = some r' →
      r' = r ∨ (r' = f r ∧ q r = true) := by
  intro rows
  induction rows with
  | nil => intro rid r r' hr _; cases hr
  | cons x xs ih =>
    intro rid r r' hr hr'
    unfold findRow at hr
    by_cases hq : q x = true
    · simp only [updateFirst, if_pos hq] at hr'
      unfold findRow at hr'
      by_cases hp : x.id.eqScalar rid = true
      · rw [if_pos hp] at hr
        injection hr with hxr
        have hfp : (f x).id.eqScalar rid = true := by rw [hid x hq]; exact hp
        rw [if_pos hfp] at hr'
        injection hr' with hfr
        right
        subst hxr
        exact ⟨hfr.symm, hq⟩
      · rw [if_neg hp] at hr
        have hfp : ¬(((f x).id.eqScalar rid : Bool) = true) := by
          rw [hid x hq]; exact hp
        rw [if_neg hfp] at hr'
        left
        rw [hr] at hr'
        exact (Option.some.inj hr').symm
    · simp only [updateFirst, if_neg hq] at hr'
      unfold findRow at hr'
      by_cases hp : x.id.eqScalar rid = true
      · rw [if_pos hp] at hr hr'
        injection hr with h1
        injection hr' with h2
        left
        rw [← h2, h1]
      · rw [if_neg hp] at hr hr'
        exact ih hr hr'

theorem foldl_applyAssign_id (ps : List (String × JVal)) (idv : JVal)
    (hps : ∀ p ∈ ps, p.1 = "id" → p.2 = idv) :
    ∀ r0 : Row, (ps.foldl applyAssign r0).id = r0.id ∨ (ps.foldl applyAssign r0).id = idv := by
  induction ps with
  | nil => intro r0; left; rfl
  | cons a t ih =>
    intro r0
    rw [List.foldl_cons]
    have ht : ∀ p ∈ t, p.1 = "id" → p.2 = idv :=
      fun p hp => hps p (List.mem_cons_of_mem a hp)
    by_cases ha : a.1 = "id"
    · have ha2 : a.2 = idv := hps a (List.mem_cons_self a t) ha
      rcases ih ht (applyAssign r0 a) with h | h
      · right
        rw [h]
        unfold applyAssign
        rw [if_pos ha]
        exact ha2
      · right; exact h
    · rcases ih ht (applyAssign r0 a) with h | h
      · left
        rw [h]
        unfold applyAssign
        rw [if_neg ha]
        split <;> rfl
      · right; exact h

theorem applyConflictUpdate_id {r : Row} {ps : List (String × JVal)} {dbNow : Int} {idv : JVal}
    (hps : ∀ p ∈ ps, p.1 = "id" → p.2 = idv) :
    (applyConflictUpdate r ps dbNow).id = r.id ∨ (applyConflictUpdate r ps dbNow).id = idv := by
  unfold applyConflictUpdate
  exact foldl_applyAssign_id ps idv hps r

theorem updatePairsOf_id {nd : JVal} {idv : JVal}
    (hidv : lookupStr (upsertPairs nd) "id" = some idv) :
    ∀ p ∈ updatePairsOf nd, p.1 = "id" → p.2 = idv := by
  intro p hp h1
  unfold updatePairsOf at hp
  rcases List.mem_map.mp hp with ⟨c, _, hpc⟩
  rw [← hpc] at h1 ⊢
  dsimp only at h1 ⊢
  rw [h1, hidv]
  rfl

theorem updateDB_self (db : DB) (t : String) (rows : List Row) :
    updateDB db t rows t = rows := by
  unfold updateDB
  rw [if_pos rfl]

theorem updateDB_other (db : DB) (t : String) (rows : List Row) (t' : String)
    (h : ¬ t' = t) : updateDB db t rows t' = db t' := by
  unfold updateDB
  rw [if_neg h]

/-- Claim C4 (amended): provided the database server clock is not behind any
stored `updated_at` of the addressed table, processing an envelope never
decreases the `updated_at` of any row: a skipped envelope leaves rows
untouched, a delete only removes rows, and an applied update rewrites
`updated_at` to the server's `NOW()`. -/
theorem updated_at_monotone (topic : String) (key : Option JVal) (value : JVal)
    (source destination : String) (db : DB) (m : Metrics) (clk : Clock)
    (hclk : ∀ r ∈ db (tableNameOf topic), r.updatedAt.getD 0 ≤ clk.dbNowMs) :
    ∀ (t : String) (rid : JVal) (r r' : Row),
      findRow (db t) rid = some r →
      findRow ((resolveConflict topic key value source destination db m clk).db t) rid =
        some r' →
      r.updatedAt.getD 0 ≤ r'.updatedAt.getD 0 := by
  intro t rid r r' hr
  have base : findRow (db t) rid = some r' → r.updatedAt.getD 0 ≤ r'.updatedAt.getD 0 := by
    intro hr'
    rw [hr] at hr'
    rw [Option.some.inj hr']
  unfold resolveConflict
  dsimp only
  split
  · exact base
  · split
    · exact base
    · rename_i recordId _
      split
      · split
        · -- delete branch
          dsimp only
          intro hr'
          by_cases ht : t = tableNameOf topic
          · rw [ht] at hr hr'
            rw [updateDB_self] at hr'
            rw [findRow_filter_stable hr hr']
          · rw [updateDB_other _ _ _ _ ht] at hr'
            exact base hr'
        · split
          · exact base
          · -- upsert branch
            rename_i idv hidv
            split
            case isFalse => exact base
            dsimp only
            intro hr'
            by_cases ht : t = tableNameOf topic
            · rw [ht] at hr hr'
              rw [updateDB_self] at hr'
              unfold upsertRows at hr'
              split at hr'
              · have hps := updatePairsOf_id hidv
                have hid : ∀ s, (s.id.eqScalar idv) = true →
                    (applyConflictUpdate s (updatePairsOf (newDataOf value)) clk.dbNowMs).id =
                      s.id := by
                  intro s hs
                  rcases applyConflictUpdate_id hps with h | h
                  · exact h
                  · rw [h]
                    exact (eqScalar_eq hs).symm
                rcases findRow_updateFirst hid hr hr' with h | ⟨h, _⟩
                · rw [h]
                · rw [h]
                  have hup : (applyConflictUpdate r (updatePairsOf (newDataOf value))
                      clk.dbNowMs).updatedAt = some clk.dbNowMs := rfl
                  rw [hup]
                  simp only [Option.getD_some]
                  exact hclk r (findRow_mem hr).1
              · rw [findRow_append_one hr] at hr'
                rw [Option.some.inj hr']
            · rw [updateDB_other _ _ _ _ ht] at hr'
              exact base hr'
      · exact base

/-- Witness for C4: with the server clock ahead of the stored row, the
applied stock update rewrites `updated_at` from the stored value to the
later `NOW()`. -/
theorem updated_at_monotone_witness :
    sampleRow.updatedAt.getD 0 ≤
      (Row.mk (.jint 7) (some 1704070000025) (some 2)
        [("stock_quantity", .jint 8), ("created_by_user_id", .jnull)]).updatedAt.getD 0 :=
  updated_at_monotone "sync.products" (some (.jobj [("id", .jint 7)])) sampleUpdateMsg
    "india" "china" sampleDb initMetrics sampleClock
    (fun r hrr => by
      rw [List.mem_singleton.mp hrr]
      decide)
    "products" (.jint 7) sampleRow
    (Row.mk (.jint 7) (some 1704070000025) (some 2)
      [("stock_quantity", .jint 8), ("created_by_user_id", .jnull)])
    rfl rfl

/-- Counterexample for C4 as stated: with the server's `NOW()` ten seconds
behind the stored row's `updated_at`, an envelope carrying a genuine
microsecond timestamp (bound to the sink as a `Date`) is accepted as newer
and rewrites `updated_at` down from 1704067210000 ms to 1704067200000 ms. -/
theorem updated_at_monotone_counterexample :
    (findRow (futureDb "products") (.jint 1)).map (fun r => r.updatedAt) =
        some (some 1704067210000) ∧
      (findRow ((resolveConflict "sync.products" none futureMsg "india" "china" futureDb
          initMetrics pastClock).db "products") (.jint 1)).map (fun r => r.updatedAt) =
        some (some 1704067200000) ∧
      (1704067200000 : Int) < 1704067210000 :=
  ⟨rfl, rfl, by decide⟩
